import Mathlib

/-
Verification of the configuration and driver logic of the hard-disc NVT
simulator (src/NVT/config.cpp and src/NVT/NVT.cpp).  Real numbers of the
source are modelled exactly by rationals.  The object, force-field,
topology and integrator translation units are not part of the two source
files; the few object-level routines that the configuration calls are
modelled from the specification and marked as such, and the force-field
dependent interaction and wall energies are taken as abstract parameters
that read only the geometric view of an object.
-/

namespace HardDiscs

/-- Geometric view of an object: the data that the (external)
object::interaction and object::box_energy routines read, namely the type,
the centre coordinates and the orientation. -/
structure GObj where
  o_type : Int
  pos_x : ℚ
  pos_y : ℚ
  orientation : ℚ

/-- An object as used by config.cpp: a placed rigid body together with its
per-object cached energy and its dirty flag. -/
structure object where
  o_type : Int
  pos_x : ℚ
  pos_y : ℚ
  orientation : ℚ
  cached_energy : ℚ
  recalculate : Bool

/-- The geometric view of an object. -/
def geom (o : object) : GObj :=
  ⟨o.o_type, o.pos_x, o.pos_y, o.orientation⟩

/-- The topology is hard coded in a translation unit that is not among the
sources; for the claims treated here only its identity as a
default-constructed value matters. -/
inductive topology
  | default

/-- The configuration class of config.cpp: domain sizes, validity flag,
cached total energy, the ordered object list, the owned topology pointer
(None models NULL) and the periodicity flag. -/
structure config where
  x_size : ℚ
  y_size : ℚ
  unchanged : Bool
  saved_energy : ℚ
  obj_list : List object
  the_topology : Option topology
  is_periodic : Bool

/-- The per-axis periodic image shift computed inside config::energy
(config.cpp lines 150-160): with r the coordinate difference obj2 - obj1,
the candidate shift is the box length with the sign opposite to r, and it
is kept only when it brings the difference strictly closer to zero. -/
def imageShift (L r : ℚ) : ℚ :=
  let d : ℚ := if r < 0 then L else -L
  let r2 : ℚ := r + d
  if |r2| < |r| then d else 0

/-- object::set_energy.  Modelled from the spec: object.cpp is not among
the sources; section 4.3 states that set_energy stores the value in
cached_energy and additionally clears the recalculate flag. -/
def set_energy (o : object) (v : ℚ) : object :=
  { o with cached_energy := v, recalculate := false }

/-- The inner loop of config::energy (config.cpp lines 141-168) for a fixed
object o1 at index i1: iterate i2 over the given index list; when periodic,
obj2 is first shifted in place to its closest image, the interaction is
accumulated, and obj2 is then shifted back.  The object list is threaded
through the recursion to mirror the in-place mutation of the source.  The
parameter inter stands for object::interaction. -/
def innerLoop (inter : GObj → GObj → ℚ) (per : Bool) (Lx Ly : ℚ)
    (i1 : ℕ) (o1 : object) : List ℕ → List object → ℚ → ℚ × List object
  | [], ys, v => (v, ys)
  | i2 :: rest, ys, v =>
    if i1 = i2 then innerLoop inter per Lx Ly i1 o1 rest ys v
    else
      match ys[i2]? with
      | none => innerLoop inter per Lx Ly i1 o1 rest ys v
      | some o2 =>
        if per then
          let dx : ℚ := imageShift Lx (o2.pos_x - o1.pos_x)
          let o2a : object := { o2 with pos_x := o2.pos_x + dx }
          let dy : ℚ := imageShift Ly (o2a.pos_y - o1.pos_y)
          let o2b : object := { o2a with pos_y := o2a.pos_y + dy }
          let v1 : ℚ := v + inter (geom o1) (geom o2b)
          let o2c : object := { o2b with pos_x := o2b.pos_x - dx,
                                         pos_y := o2b.pos_y - dy }
          innerLoop inter per Lx Ly i1 o1 rest ((ys.set i2 o2b).set i2 o2c) v1
        else
          innerLoop inter per Lx Ly i1 o1 rest ys (v + inter (geom o1) (geom o2))

/-- The partner object as seen by the interaction call inside the inner
loop: in periodic mode the closest image of o2 relative to o1, otherwise o2
itself. -/
def shiftObj (Lx Ly : ℚ) (o1 o2 : object) : object :=
  { o2 with pos_x := o2.pos_x + imageShift Lx (o2.pos_x - o1.pos_x),
            pos_y := o2.pos_y + imageShift Ly (o2.pos_y - o1.pos_y) }

/-- Pure value of the inner loop: the sum over the partner indices i2 that
differ from i1 of the interaction of o1 with the (image-shifted, when
periodic) partner. -/
def innerSum (inter : GObj → GObj → ℚ) (per : Bool) (Lx Ly : ℚ)
    (i1 : ℕ) (o1 : object) (ys : List object) : List ℕ → ℚ
  | [] => 0
  | i2 :: rest =>
    (if i1 = i2 then 0
     else
       match ys[i2]? with
       | none => 0
       | some o2 =>
         if per then inter (geom o1) (geom (shiftObj Lx Ly o1 o2))
         else inter (geom o1) (geom o2)) +
      innerSum inter per Lx Ly i1 o1 ys rest

/-- The energy that a recalculation stores for object o1 at index i1: the
inner-loop sum, plus the wall term from object::box_energy when the
configuration is not periodic (config.cpp lines 169-173). -/
def recalcValue (inter : GObj → GObj → ℚ) (boxE : GObj → ℚ → ℚ → ℚ)
    (per : Bool) (Lx Ly : ℚ) (ys : List object) (i1 : ℕ) (o1 : object) : ℚ :=
  if per then innerSum inter per Lx Ly i1 o1 ys (List.range ys.length)
  else innerSum inter per Lx Ly i1 o1 ys (List.range ys.length) +
    boxE (geom o1) Lx Ly

/-- The effect of one pass of the outer loop of config::energy on the
object at index i1, expressed against a reference object list: a flagged
object is refreshed through set_energy, an unflagged one is untouched. -/
def newObj (inter : GObj → GObj → ℚ) (boxE : GObj → ℚ → ℚ → ℚ)
    (per : Bool) (Lx Ly : ℚ) (ys : List object) (i1 : ℕ) (o1 : object) :
    object :=
  if o1.recalculate then
    set_energy o1 (recalcValue inter boxE per Lx Ly ys i1 o1)
  else o1

/-- The outer loop of config::energy (config.cpp lines 137-178): for every
index i1 in turn, an object flagged recalculate has its energy recomputed
by the inner loop (plus wall term when not periodic) and stored with
set_energy; the possibly updated cached energy is then accumulated into
saved_energy.  The parameter boxE stands for object::box_energy. -/
def outerLoop (inter : GObj → GObj → ℚ) (boxE : GObj → ℚ → ℚ → ℚ)
    (per : Bool) (Lx Ly : ℚ) : List ℕ → List object → ℚ → List object × ℚ
  | [], ys, se => (ys, se)
  | i1 :: rest, ys, se =>
    match ys[i1]? with
    | none => outerLoop inter boxE per Lx Ly rest ys se
    | some o1 =>
      if o1.recalculate then
        let p := innerLoop inter per Lx Ly i1 o1 (List.range ys.length) ys 0
        let v : ℚ := if per then p.1 else p.1 + boxE (geom o1) Lx Ly
        let o1n : object := set_energy o1 v
        outerLoop inter boxE per Lx Ly rest ((p.2).set i1 o1n)
          (se + o1n.cached_energy)
      else outerLoop inter boxE per Lx Ly rest ys (se + o1.cached_energy)

/-- config::energy (config.cpp lines 129-183): when the configuration is
flagged unchanged the cached total is returned as is; otherwise
saved_energy is rebuilt by the double loop, unchanged is set, and half of
saved_energy is returned since every pair is counted twice.  The function
returns the value together with the post-state. -/
def energy (inter : GObj → GObj → ℚ) (boxE : GObj → ℚ → ℚ → ℚ)
    (c : config) : ℚ × config :=
  if c.unchanged then (c.saved_energy / 2, c)
  else
    let p := outerLoop inter boxE c.is_periodic c.x_size c.y_size
      (List.range c.obj_list.length) c.obj_list 0
    (p.2 / 2, { c with obj_list := p.1, saved_energy := p.2, unchanged := true })

/-- config::area (config.cpp line 114). -/
def area (c : config) : ℚ := c.x_size * c.y_size

/-- object::move.  Modelled from the spec: object.cpp is not among the
sources; section 4.3: add the random draws dx and dy to the centre,
wrapping into the box when periodic, and set the recalculate flag, which
must be set whenever the position changes.  The draws are explicit
parameters. -/
def obj_move (o : object) (dx dy Lx Ly : ℚ) (per : Bool) : object :=
  let x : ℚ := o.pos_x + dx
  let y : ℚ := o.pos_y + dy
  { o with pos_x := if per then x - Lx * (⌊x / Lx⌋ : ℚ) else x,
           pos_y := if per then y - Ly * (⌊y / Ly⌋ : ℚ) else y,
           recalculate := true }

/-- object::rotate.  Modelled from the spec: object.cpp is not among the
sources; section 4.3: add the random draw to the orientation and set the
recalculate flag.  The reduction of the angle into the interval from 0 to
2 pi is omitted here because 2 pi is irrational and no claim depends on
the reduction. -/
def obj_rotate (o : object) (dth : ℚ) : object :=
  { o with orientation := o.orientation + dth, recalculate := true }

/-- object::expand.  Modelled from the spec: object.cpp is not among the
sources; section 4.3: multiply the centre coordinates by the factor. -/
def obj_expand (o : object) (dl : ℚ) : object :=
  { o with pos_x := o.pos_x * dl, pos_y := o.pos_y * dl }

/-- config::move (config.cpp lines 303-306): delegate to object::move and
then object::rotate on the object at index obj_number.  The random draws
are explicit parameters.  No configuration field other than the object
list is touched. -/
def config_move (c : config) (obj_number : ℕ) (dx dy dth : ℚ) : config :=
  match c.obj_list[obj_number]? with
  | none => c
  | some o =>
    let o2 : object :=
      obj_rotate (obj_move o dx dy c.x_size c.y_size c.is_periodic) dth
    { c with obj_list := c.obj_list.set obj_number o2 }

/-- config::rotate (config.cpp lines 315-317): delegate to object::rotate
on the object at index obj_number. -/
def config_rotate (c : config) (obj_number : ℕ) (dth : ℚ) : config :=
  match c.obj_list[obj_number]? with
  | none => c
  | some o =>
    { c with obj_list := c.obj_list.set obj_number (obj_rotate o dth) }

/-- config::expand (config.cpp lines 284-294): scale both box sizes, clear
the unchanged flag, and for every object set its recalculate flag and
rescale its centre. -/
def config_expand (c : config) (dl : ℚ) : config :=
  { c with x_size := c.x_size * dl, y_size := c.y_size * dl,
           unchanged := false,
           obj_list := c.obj_list.map (fun o =>
             obj_expand { o with recalculate := true } dl) }

/-- object::distance compared against a cut-off.  Modelled from the spec:
object.cpp is not among the sources; section 4.3: centre-to-centre
distance, under the minimum image when periodic.  The comparison of the
distance with d is modelled as a comparison of the squared distance with
the square of d; the two agree whenever d is non-negative since distances
are non-negative. -/
def dist_lt (o1 o2 : object) (Lx Ly : ℚ) (per : Bool) (d : ℚ) : Bool :=
  let rx : ℚ := o2.pos_x - o1.pos_x
  let ry : ℚ := o2.pos_y - o1.pos_y
  let rx2 : ℚ := if per then rx + imageShift Lx rx else rx
  let ry2 : ℚ := if per then ry + imageShift Ly ry else ry
  decide (rx2 * rx2 + ry2 * ry2 < d * d)

/-- The element-wise pass of config::invalidate_within over the object
list, carrying the current index: every object at an index other than the
reference index whose distance from the reference object is below the
cut-off gets its recalculate flag set. -/
def invalApply (o1 : object) (Lx Ly : ℚ) (per : Bool) (d : ℚ)
    (index : ℕ) : ℕ → List object → List object
  | _, [] => []
  | i, o2 :: rest =>
    (if i ≠ index then
       (if dist_lt o1 o2 Lx Ly per d then { o2 with recalculate := true }
        else o2)
     else o2) :: invalApply o1 Lx Ly per d index (i + 1) rest

/-- config::invalidate_within (config.cpp lines 326-337): flag every object
other than the one at the reference index whose distance from the
reference object is below the cut-off. -/
def invalidate_within (c : config) (distance : ℚ) (index : ℕ) : config :=
  match c.obj_list[index]? with
  | none => c
  | some o1 =>
    let ys : List object :=
      invalApply o1 c.x_size c.y_size c.is_periodic distance index 0 c.obj_list
    { c with obj_list := ys }

/-- The object constructor object(o_type, x_pos, y_pos, angle).  Modelled
from the spec: object.cpp is not among the sources; section 3: the dirty
flag is true exactly when the cached energy is stale, so a freshly built
object starts with recalculate set and with a zero cached energy. -/
def object_new (t : Int) (x y angle : ℚ) : object :=
  { o_type := t, pos_x := x, pos_y := y, orientation := angle,
    cached_energy := 0, recalculate := true }

/-- The copy constructor config::config(config orig) (config.cpp lines
84-101): field-wise copy of the sizes, the saved energy, the unchanged
flag and the periodicity; a fresh default-constructed topology regardless
of the original (the source comments call this a cheat); every object is
rebuilt through the object constructor from its type, centre and
orientation only. -/
def config_copy (orig : config) : config :=
  { x_size := orig.x_size, y_size := orig.y_size,
    saved_energy := orig.saved_energy, unchanged := orig.unchanged,
    the_topology := some topology.default, is_periodic := orig.is_periodic,
    obj_list := orig.obj_list.map (fun o =>
      object_new o.o_type o.pos_x o.pos_y o.orientation) }

/-- The numeric value reparsed from one header field written by
config::write (config.cpp line 200): the format text between the quotes
puts a width-9 fixed-point conversion with six decimal digits directly
before a literal digit 2, so for a non-negative size the printed text is
the six-decimal rendering of the size followed by the digit 2, which the
reader of the file constructor (config.cpp line 57) parses back as the
six-decimal rounding of the size plus 2 times 10 to the minus 7. -/
def written_size (x : ℚ) : ℚ :=
  (⌊x * 1000000 + 1 / 2⌋ : ℚ) / 1000000 + 2 / 10000000

/-- One object line written by object::write and reparsed by the file
constructor.  Modelled from the spec: object.cpp is not among the sources;
section 6: one line per object holding o_type, x, y and the angle, written
and read back faithfully; the file constructor rebuilds the object through
the object constructor (config.cpp line 66). -/
def object_roundtrip (o : object) : object :=
  object_new o.o_type o.pos_x o.pos_y o.orientation

/-- config::write (config.cpp lines 196-207) followed by the file
constructor (config.cpp lines 50-78) applied to the written text: the two
header sizes pass through the width-9-then-literal-2 format and the
percent-lf parse; the object count and the object lines are reread; the
constructor leaves unchanged false, saved_energy 0, a NULL topology, and
is_periodic true (config.cpp lines 70-74). -/
def config_roundtrip (c : config) : config :=
  { x_size := written_size c.x_size, y_size := written_size c.y_size,
    unchanged := false, saved_energy := 0,
    obj_list := c.obj_list.map object_roundtrip,
    the_topology := none, is_periodic := true }

/-- The overlap-relief loop of the driver (NVT.cpp lines 207-222) with the
integrator abstracted: U k is the total energy after k batches, each batch
being one integrator run of 2 times N steps; the step counter i of the
source always equals 2 times N times k.  At each loop head the energy is
compared strictly against big_energy; inside the loop body the counter is
first checked against 2000 times N and the program dies when it is
exceeded.  Except.error models the fatal exit, Except.ok k a normal exit
after k batches, and none exhaustion of the fuel. -/
def relief (N : ℕ) (big : ℚ) (U : ℕ → ℚ) : ℕ → ℕ → Option (Except Unit ℕ)
  | 0, _ => none
  | fuel + 1, k =>
    if big < U k then
      if 2000 * N < 2 * N * k then some (Except.error ())
      else relief N big U fuel (k + 1)
    else some (Except.ok k)

/-- A constant interaction of zero, used as a concrete force field. -/
def interZero : GObj → GObj → ℚ := fun _ _ => 0

/-- A constant interaction of one, used as a concrete force field. -/
def interOne : GObj → GObj → ℚ := fun _ _ => 1

/-- A zero wall energy, used as a concrete force field. -/
def boxZero : GObj → ℚ → ℚ → ℚ := fun _ _ _ => 0

/-- A sample object with a stale flag and a non-zero cached energy. -/
def oStale : object :=
  { o_type := 0, pos_x := 1, pos_y := 1, orientation := 0,
    cached_energy := 5, recalculate := true }

/-- A sample clean object. -/
def oClean : object :=
  { o_type := 0, pos_x := 4, pos_y := 4, orientation := 0,
    cached_energy := 3, recalculate := false }

/-- A configuration flagged unchanged whose single object is nevertheless
flagged for recalculation and whose saved energy disagrees with the cached
per-object energies. -/
def cStaleUnchanged : config :=
  { x_size := 10, y_size := 10, unchanged := true, saved_energy := 0,
    obj_list := [oStale], the_topology := none, is_periodic := true }

/-- A two-object configuration requiring recomputation of its first
object. -/
def cDirty : config :=
  { x_size := 10, y_size := 10, unchanged := false, saved_energy := 0,
    obj_list := [oStale, oClean], the_topology := none, is_periodic := true }

/-- A single-object configuration flagged unchanged, input for the move
and rotate counterexample. -/
def cOneUnchanged : config :=
  { x_size := 10, y_size := 10, unchanged := true, saved_energy := 0,
    obj_list := [oClean], the_topology := none, is_periodic := true }

/-- The empty ten-by-ten configuration of the round-trip scenario. -/
def cEmptyTen : config :=
  { x_size := 10, y_size := 10, unchanged := true, saved_energy := 0,
    obj_list := [], the_topology := none, is_periodic := false }

/-- A configuration flagged unchanged with a non-zero saved energy. -/
def cSavedFour : config :=
  { x_size := 10, y_size := 10, unchanged := true, saved_energy := 4,
    obj_list := [], the_topology := none, is_periodic := true }

/-- An object at the origin with a clear flag. -/
def oOrigin : object :=
  { o_type := 0, pos_x := 0, pos_y := 0, orientation := 0,
    cached_energy := 0, recalculate := false }

/-- An object at distance exactly five from the origin with a clear
flag. -/
def oThreeFour : object :=
  { o_type := 0, pos_x := 3, pos_y := 4, orientation := 0,
    cached_energy := 0, recalculate := false }

/-- A non-periodic two-object configuration whose objects sit at distance
exactly five from each other, with all flags clear. -/
def cExactFive : config :=
  { x_size := 100, y_size := 100, unchanged := false, saved_energy := 0,
    obj_list := [oOrigin, oThreeFour], the_topology := none,
    is_periodic := false }

/-- The saved-energy contribution of a list of indices, read off against a
reference object list: the cached energy that newObj leaves at each
index. -/
def sumNew (inter : GObj → GObj → ℚ) (boxE : GObj → ℚ → ℚ → ℚ)
    (per : Bool) (Lx Ly : ℚ) (ys0 : List object) : List ℕ → ℚ
  | [] => 0
  | i :: rest =>
    (((ys0[i]?).map (fun o =>
      (newObj inter boxE per Lx Ly ys0 i o).cached_energy)).getD 0) +
      sumNew inter boxE per Lx Ly ys0 rest

/-- The sum of the cached energies of the objects of a list at a list of
indices. -/
def cachedSum (zs : List object) : List ℕ → ℚ
  | [] => 0
  | i :: rest =>
    (((zs[i]?).map (fun o => o.cached_energy)).getD 0) + cachedSum zs rest

lemma getq_lt {α : Type} {l : List α} {i : ℕ} {a : α} (h : l[i]? = some a) :
    i < l.length :=
  (List.getElem?_eq_some.mp h).1

lemma set_self_of_getq {α : Type} {l : List α} {i : ℕ} {a : α}
    (h : l[i]? = some a) : l.set i a = l := by
  apply List.ext_getElem?
  intro j
  by_cases hj : i = j
  · subst hj
    rw [List.getElem?_set_self (getq_lt h), h]
  · rw [List.getElem?_set_ne hj]

lemma geom_fields {o o2 : object} (h : geom o = geom o2) :
    o.o_type = o2.o_type ∧ o.pos_x = o2.pos_x ∧ o.pos_y = o2.pos_y ∧
      o.orientation = o2.orientation := by
  cases o; cases o2
  simpa [geom, GObj.mk.injEq] using h

lemma geom_shiftObj (Lx Ly : ℚ) (o1 : object) {o2 o2b : object}
    (h : geom o2 = geom o2b) :
    geom (shiftObj Lx Ly o1 o2) = geom (shiftObj Lx Ly o1 o2b) := by
  obtain ⟨h1, h2, h3, h4⟩ := geom_fields h
  simp [geom, shiftObj, h1, h2, h3, h4]

lemma getq_map_geom {xs ys : List object} (h : xs.map geom = ys.map geom)
    (i : ℕ) : (xs[i]?).map geom = (ys[i]?).map geom := by
  rw [← List.getElem?_map, ← List.getElem?_map, h]

lemma map_geom_set {ys : List object} {i : ℕ} {o : object} (b : object)
    (h : ys[i]? = some o) (hb : geom b = geom o) :
    (ys.set i b).map geom = ys.map geom := by
  apply List.ext_getElem?
  intro j
  rw [List.getElem?_map, List.getElem?_map]
  by_cases hj : i = j
  · subst hj
    rw [List.getElem?_set_self (getq_lt h), h]
    simp [hb]
  · rw [List.getElem?_set_ne hj]

lemma innerSum_congr (inter : GObj → GObj → ℚ) (per : Bool) (Lx Ly : ℚ)
    (i1 : ℕ) (o1 : object) {xs ys : List object}
    (h : xs.map geom = ys.map geom) :
    ∀ idxs : List ℕ, innerSum inter per Lx Ly i1 o1 xs idxs =
      innerSum inter per Lx Ly i1 o1 ys idxs := by
  intro idxs
  induction idxs with
  | nil => rfl
  | cons i2 rest ih =>
    have hq := getq_map_geom h i2
    unfold innerSum
    rw [ih]
    congr 1
    by_cases h12 : i1 = i2
    · simp [h12]
    · simp only [if_neg h12]
      cases hx : xs[i2]? with
      | none =>
        cases hy : ys[i2]? with
        | none => rfl
        | some o2 => rw [hx, hy] at hq; simp at hq
      | some o2 =>
        cases hy : ys[i2]? with
        | none => rw [hx, hy] at hq; simp at hq
        | some o2b =>
          rw [hx, hy] at hq
          simp only [Option.map_some'] at hq
          rw [Option.some.injEq] at hq
          cases per <;> simp [hq, geom_shiftObj Lx Ly o1 hq]

lemma innerLoop_spec (inter : GObj → GObj → ℚ) (per : Bool) (Lx Ly : ℚ)
    (i1 : ℕ) (o1 : object) :
    ∀ (idxs : List ℕ) (ys : List object) (v : ℚ),
      innerLoop inter per Lx Ly i1 o1 idxs ys v =
        (v + innerSum inter per Lx Ly i1 o1 ys idxs, ys) := by
  intro idxs
  induction idxs with
  | nil => intro ys v; simp [innerLoop, innerSum]
  | cons i2 rest ih =>
    intro ys v
    by_cases h12 : i1 = i2
    · subst h12
      simp [innerLoop, innerSum, ih]
    · cases hy : ys[i2]? with
      | none => simp [innerLoop, innerSum, h12, hy, ih]
      | some o2 =>
        cases per with
        | false => simp [innerLoop, innerSum, h12, hy, ih, add_assoc]
        | true =>
          obtain ⟨t2, px2, py2, or2, ce2, rc2⟩ := o2
          simp only [innerLoop, if_neg h12, hy, ih, List.set_set]
          have hrest :
              ({ o_type := t2, pos_x := px2 + imageShift Lx (px2 - o1.pos_x)
                    - imageShift Lx (px2 - o1.pos_x),
                 pos_y := py2 + imageShift Ly (py2 - o1.pos_y)
                    - imageShift Ly (py2 - o1.pos_y),
                 orientation := or2, cached_energy := ce2,
                 recalculate := rc2 } : object) =
              { o_type := t2, pos_x := px2, pos_y := py2,
                orientation := or2, cached_energy := ce2,
                recalculate := rc2 } := by
            simp
          rw [hrest, set_self_of_getq hy]
          simp [innerSum, if_neg h12, hy, shiftObj, add_assoc]

lemma energy_sets_unchanged (inter : GObj → GObj → ℚ)
    (boxE : GObj → ℚ → ℚ → ℚ) (c : config) :
    (energy inter boxE c).2.unchanged = true := by
  unfold energy
  split
  · next h => exact h
  · rfl

/-- C7: for a configuration flagged unchanged, config::energy returns the
cached half energy and leaves the state untouched, so a second call
returns the identical value, performs no recomputation, and still leaves
the unchanged flag set. -/
theorem C7_energy_idempotent (inter : GObj → GObj → ℚ)
    (boxE : GObj → ℚ → ℚ → ℚ) (c : config) (h : c.unchanged = true) :
    energy inter boxE c = (c.saved_energy / 2, c) ∧
    energy inter boxE (energy inter boxE c).2 = energy inter boxE c ∧
    (energy inter boxE c).2.unchanged = true := by
  have h1 : energy inter boxE c = (c.saved_energy / 2, c) := by
    unfold energy; rw [if_pos h]
  refine ⟨h1, ?_, ?_⟩
  · rw [h1]
    exact h1
  · rw [h1]; exact h

/-- Closed instance of C7_energy_idempotent at a concrete configuration. -/
theorem C7_witness :
    cSavedFour.unchanged = true ∧
    (energy interZero boxZero cSavedFour =
      (cSavedFour.saved_energy / 2, cSavedFour) ∧
    energy interZero boxZero (energy interZero boxZero cSavedFour).2 =
      energy interZero boxZero cSavedFour ∧
    (energy interZero boxZero cSavedFour).2.unchanged = true) :=
  ⟨rfl, C7_energy_idempotent interZero boxZero cSavedFour rfl⟩

/-- C10: the copy constructor copies the sizes, the periodicity, the saved
energy and the unchanged flag, installs a fresh default-constructed
topology independent of the original, and rebuilds the objects in order
with the same type, centre and orientation, their cached energy and dirty
flag coming from the object constructor rather than from the copied
objects. -/
theorem C10_copy_constructor (c : config) :
    (config_copy c).x_size = c.x_size ∧
    (config_copy c).y_size = c.y_size ∧
    (config_copy c).is_periodic = c.is_periodic ∧
    (config_copy c).saved_energy = c.saved_energy ∧
    (config_copy c).unchanged = c.unchanged ∧
    (config_copy c).the_topology = some topology.default ∧
    (config_copy c).obj_list.map geom = c.obj_list.map geom ∧
    ∀ o ∈ (config_copy c).obj_list,
      o.cached_energy = 0 ∧ o.recalculate = true := by
  refine ⟨rfl, rfl, rfl, rfl, rfl, rfl, ?_, ?_⟩
  · show (c.obj_list.map fun o =>
      object_new o.o_type o.pos_x o.pos_y o.orientation).map geom =
        c.obj_list.map geom
    rw [List.map_map]
    rfl
  · intro o ho
    simp only [config_copy, List.mem_map] at ho
    obtain ⟨a, _, rfl⟩ := ho
    exact ⟨rfl, rfl⟩

/-- C5: evaluating the write-then-read round trip at the empty ten-by-ten
configuration: the reloaded sizes are ten plus two times ten to the minus
seven rather than ten, because config::write prints each size through a
width-9 fixed conversion immediately followed by a literal digit 2; the
object count is preserved and the energy of the reloaded configuration is
zero. -/
theorem C5_write_corrupts_sizes :
    (config_roundtrip cEmptyTen).x_size = 10 + 2 / 10000000 ∧
    ¬ (config_roundtrip cEmptyTen).x_size = 10 ∧
    (config_roundtrip cEmptyTen).y_size = 10 + 2 / 10000000 ∧
    (config_roundtrip cEmptyTen).obj_list.length = 0 ∧
    (energy interZero boxZero (config_roundtrip cEmptyTen)).1 = 0 := by
  have hfl : (⌊(10 : ℚ) * 1000000 + 1 / 2⌋ : ℤ) = 10000000 := by
    rw [Int.floor_eq_iff]
    norm_num
  refine ⟨?_, ?_, ?_, rfl, ?_⟩
  · show written_size 10 = 10 + 2 / 10000000
    rw [written_size, hfl]
    norm_num
  · show ¬ written_size 10 = 10
    rw [written_size, hfl]
    norm_num
  · show written_size 10 = 10 + 2 / 10000000
    rw [written_size, hfl]
    norm_num
  · show (energy interZero boxZero (config_roundtrip cEmptyTen)).1 = 0
    simp [energy, config_roundtrip, cEmptyTen, outerLoop]

/-- C2 counterexample: on a configuration whose unchanged flag is set,
config::move and config::rotate leave the flag set, contradicting the
claim that the flag is false after any such call. -/
theorem C2_cex :
    cOneUnchanged.unchanged = true ∧
    (config_move cOneUnchanged 0 1 1 1).unchanged = true ∧
    (config_rotate cOneUnchanged 0 1).unchanged = true := by
  refine ⟨rfl, ?_, ?_⟩
  · simp [config_move, cOneUnchanged]
  · simp [config_rotate, cOneUnchanged]

/-- C2 (amended): config::expand clears the unchanged flag and flags every
object; config::move and config::rotate flag the touched object but leave
the configuration's unchanged flag exactly as it was; after any of the
three, the next config::energy call leaves the unchanged flag set. -/
theorem C2_flags (c : config) (k : ℕ) (o : object)
    (hk : c.obj_list[k]? = some o) (dx dy dth dth2 dl : ℚ)
    (inter : GObj → GObj → ℚ) (boxE : GObj → ℚ → ℚ → ℚ) :
    ((config_move c k dx dy dth).obj_list[k]?).map
      (fun o2 => o2.recalculate) = some true ∧
    (config_move c k dx dy dth).unchanged = c.unchanged ∧
    ((config_rotate c k dth2).obj_list[k]?).map
      (fun o2 => o2.recalculate) = some true ∧
    (config_rotate c k dth2).unchanged = c.unchanged ∧
    (config_expand c dl).unchanged = false ∧
    (∀ o2 ∈ (config_expand c dl).obj_list, o2.recalculate = true) ∧
    (energy inter boxE (config_move c k dx dy dth)).2.unchanged = true ∧
    (energy inter boxE (config_rotate c k dth2)).2.unchanged = true ∧
    (energy inter boxE (config_expand c dl)).2.unchanged = true := by
  refine ⟨?_, ?_, ?_, ?_, rfl, ?_,
    energy_sets_unchanged _ _ _, energy_sets_unchanged _ _ _,
    energy_sets_unchanged _ _ _⟩
  · simp [config_move, hk, List.getElem?_set_self (getq_lt hk), obj_rotate]
  · simp [config_move, hk]
  · simp [config_rotate, hk, List.getElem?_set_self (getq_lt hk), obj_rotate]
  · simp [config_rotate, hk]
  · intro o2 ho2
    simp only [config_expand, List.mem_map] at ho2
    obtain ⟨a, _, rfl⟩ := ho2
    simp [obj_expand]

/-- Closed instance of C2_flags at a concrete configuration. -/
theorem C2_witness :
    cOneUnchanged.obj_list[0]? = some oClean ∧
    (((config_move cOneUnchanged 0 1 1 1).obj_list[0]?).map
      (fun o2 => o2.recalculate) = some true ∧
    (config_move cOneUnchanged 0 1 1 1).unchanged = cOneUnchanged.unchanged ∧
    ((config_rotate cOneUnchanged 0 1).obj_list[0]?).map
      (fun o2 => o2.recalculate) = some true ∧
    (config_rotate cOneUnchanged 0 1).unchanged = cOneUnchanged.unchanged ∧
    (config_expand cOneUnchanged 2).unchanged = false ∧
    (∀ o2 ∈ (config_expand cOneUnchanged 2).obj_list,
      o2.recalculate = true) ∧
    (energy interZero boxZero
      (config_move cOneUnchanged 0 1 1 1)).2.unchanged = true ∧
    (energy interZero boxZero
      (config_rotate cOneUnchanged 0 1)).2.unchanged = true ∧
    (energy interZero boxZero
      (config_expand cOneUnchanged 2)).2.unchanged = true) :=
  ⟨rfl, C2_flags cOneUnchanged 0 oClean rfl 1 1 1 1 2 interZero boxZero⟩

lemma invalApply_getq (o1 : object) (Lx Ly : ℚ) (per : Bool) (d : ℚ)
    (index : ℕ) :
    ∀ (l : List object) (j i : ℕ),
      (invalApply o1 Lx Ly per d index j l)[i]? = (l[i]?).map (fun o2 =>
        if j + i ≠ index then
          (if dist_lt o1 o2 Lx Ly per d then { o2 with recalculate := true }
           else o2)
        else o2) := by
  intro l
  induction l with
  | nil => intro j i; simp [invalApply]
  | cons a t ih =>
    intro j i
    cases i with
    | zero => simp [invalApply]
    | succ i =>
      have e : j + 1 + i = j + (i + 1) := by omega
      simp only [invalApply, List.getElem?_cons_succ]
      rw [ih (j + 1) i, e]

/-- C8 (amended): config::invalidate_within sets the recalculate flag on
every object other than the reference object whose centre distance from
the reference object is strictly below the cut-off, changes no other field
of any object, and changes no field of the configuration. -/
theorem C8_invalidate_within (c : config) (d : ℚ) (k : ℕ) (o1 : object)
    (h : c.obj_list[k]? = some o1) :
    (∀ i : ℕ, (invalidate_within c d k).obj_list[i]? =
      (c.obj_list[i]?).map (fun o2 =>
        if i ≠ k then
          (if dist_lt o1 o2 c.x_size c.y_size c.is_periodic d then
            { o2 with recalculate := true }
           else o2)
        else o2)) ∧
    (invalidate_within c d k).x_size = c.x_size ∧
    (invalidate_within c d k).y_size = c.y_size ∧
    (invalidate_within c d k).unchanged = c.unchanged ∧
    (invalidate_within c d k).saved_energy = c.saved_energy ∧
    (invalidate_within c d k).the_topology = c.the_topology ∧
    (invalidate_within c d k).is_periodic = c.is_periodic := by
  refine ⟨?_, ?_, ?_, ?_, ?_, ?_, ?_⟩ <;>
    simp only [invalidate_within, h]
  · intro i
    rw [invalApply_getq]
    simp

/-- C8 counterexample: the reference object itself is never flagged even
though its distance from itself is below any positive cut-off, and an
object at distance exactly equal to the cut-off is not flagged either. -/
theorem C8_cex :
    dist_lt oClean oClean 10 10 true 1 = true ∧
    ((invalidate_within cOneUnchanged 1 0).obj_list[0]?).map
      (fun o2 => o2.recalculate) = some false ∧
    (oThreeFour.pos_x - oOrigin.pos_x) ^ 2 +
      (oThreeFour.pos_y - oOrigin.pos_y) ^ 2 = 5 ^ 2 ∧
    dist_lt oOrigin oThreeFour 100 100 false 5 = false ∧
    ((invalidate_within cExactFive 5 0).obj_list[1]?).map
      (fun o2 => o2.recalculate) = some false := by
  have hd : dist_lt oOrigin oThreeFour 100 100 false 5 = false := by
    norm_num [dist_lt, oThreeFour, oOrigin]
  have h1 : (invalidate_within cOneUnchanged 1 0).obj_list =
      invalApply oClean 10 10 true 1 0 0 cOneUnchanged.obj_list := rfl
  have h2 : (invalidate_within cExactFive 5 0).obj_list =
      invalApply oOrigin 100 100 false 5 0 0 cExactFive.obj_list := rfl
  refine ⟨?_, ?_, ?_, hd, ?_⟩
  · norm_num [dist_lt, oClean, imageShift]
  · rw [h1, invalApply_getq]
    rfl
  · norm_num [oThreeFour, oOrigin]
  · rw [h2, invalApply_getq]
    simp [cExactFive, hd]
    rfl

/-- Closed instance of C8_invalidate_within at a concrete configuration. -/
theorem C8_witness :
    cExactFive.obj_list[0]? = some oOrigin ∧
    (invalidate_within cExactFive 5 0).obj_list[1]? =
      (cExactFive.obj_list[1]?).map (fun o2 =>
        if 1 ≠ 0 then
          (if dist_lt oOrigin o2 cExactFive.x_size cExactFive.y_size
              cExactFive.is_periodic 5 then
            { o2 with recalculate := true }
           else o2)
        else o2) ∧
    (invalidate_within cExactFive 5 0).unchanged = cExactFive.unchanged :=
  ⟨rfl, (C8_invalidate_within cExactFive 5 0 oOrigin rfl).1 1,
    (C8_invalidate_within cExactFive 5 0 oOrigin rfl).2.2.2.1⟩

lemma geom_newObj (inter : GObj → GObj → ℚ) (boxE : GObj → ℚ → ℚ → ℚ)
    (per : Bool) (Lx Ly : ℚ) (ys0 : List object) (i1 : ℕ) (o1 : object) :
    geom (newObj inter boxE per Lx Ly ys0 i1 o1) = geom o1 := by
  unfold newObj set_energy
  split <;> rfl

lemma outerLoop_spec (inter : GObj → GObj → ℚ) (boxE : GObj → ℚ → ℚ → ℚ)
    (per : Bool) (Lx Ly : ℚ) (ys0 : List object) :
    ∀ (idxs : List ℕ) (ys : List object) (se : ℚ),
      idxs.Nodup →
      (∀ i ∈ idxs, ys[i]? = ys0[i]?) →
      ys.map geom = ys0.map geom →
      (∀ i ∈ idxs,
        (outerLoop inter boxE per Lx Ly idxs ys se).1[i]? =
          (ys0[i]?).map (newObj inter boxE per Lx Ly ys0 i)) ∧
      (∀ i ∉ idxs,
        (outerLoop inter boxE per Lx Ly idxs ys se).1[i]? = ys[i]?) ∧
      (outerLoop inter boxE per Lx Ly idxs ys se).1.map geom =
        ys.map geom ∧
      (outerLoop inter boxE per Lx Ly idxs ys se).2 =
        se + sumNew inter boxE per Lx Ly ys0 idxs := by
  intro idxs
  induction idxs with
  | nil =>
    intro ys se _ _ _
    exact ⟨by simp, fun i _ => rfl, rfl, by simp [outerLoop, sumNew]⟩
  | cons i1 rest ih =>
    intro ys se hnd hsame hg
    have hnd2 : rest.Nodup := (List.nodup_cons.mp hnd).2
    have hni : i1 ∉ rest := (List.nodup_cons.mp hnd).1
    have h1 : ys[i1]? = ys0[i1]? := hsame i1 (by simp)
    have hlen : ys.length = ys0.length := by
      have := congrArg List.length hg
      simpa using this
    cases h0 : ys0[i1]? with
    | none =>
      have hy : ys[i1]? = none := by rw [h1, h0]
      have hrec : outerLoop inter boxE per Lx Ly (i1 :: rest) ys se =
          outerLoop inter boxE per Lx Ly rest ys se := by
        simp [outerLoop, hy]
      obtain ⟨ha, hb, hc, hd⟩ := ih ys se hnd2
        (fun i hi => hsame i (by simp [hi])) hg
      refine ⟨?_, ?_, ?_, ?_⟩
      · intro i hi
        rcases List.mem_cons.mp hi with rfl | hi2
        · rw [hrec, hb i hni, hy, h0]
          rfl
        · rw [hrec]
          exact ha i hi2
      · intro i hi
        rw [hrec]
        exact hb i (fun hmem => hi (List.mem_cons_of_mem _ hmem))
      · rw [hrec]
        exact hc
      · rw [hrec, hd]
        simp [sumNew, h0]
    | some o1 =>
      have hy : ys[i1]? = some o1 := by rw [h1, h0]
      cases hrc : o1.recalculate with
      | false =>
        have hnon : newObj inter boxE per Lx Ly ys0 i1 o1 = o1 := by
          simp [newObj, hrc]
        have hrec : outerLoop inter boxE per Lx Ly (i1 :: rest) ys se =
            outerLoop inter boxE per Lx Ly rest ys
              (se + o1.cached_energy) := by
          simp [outerLoop, hy, hrc]
        obtain ⟨ha, hb, hc, hd⟩ := ih ys (se + o1.cached_energy) hnd2
          (fun i hi => hsame i (by simp [hi])) hg
        refine ⟨?_, ?_, ?_, ?_⟩
        · intro i hi
          rcases List.mem_cons.mp hi with rfl | hi2
          · rw [hrec, hb i hni, hy, h0, Option.map_some', hnon]
          · rw [hrec]
            exact ha i hi2
        · intro i hi
          rw [hrec]
          exact hb i (fun hmem => hi (List.mem_cons_of_mem _ hmem))
        · rw [hrec]
          exact hc
        · rw [hrec, hd]
          simp [sumNew, h0, hnon]
          ring
      | true =>
        have hil := innerLoop_spec inter per Lx Ly i1 o1
          (List.range ys.length) ys 0
        have hvv : innerSum inter per Lx Ly i1 o1 ys
            (List.range ys.length) =
            innerSum inter per Lx Ly i1 o1 ys0 (List.range ys0.length) := by
          rw [hlen]
          exact innerSum_congr inter per Lx Ly i1 o1 hg _
        have hform : newObj inter boxE per Lx Ly ys0 i1 o1 =
            set_energy o1 (if per then
              (0 : ℚ) + innerSum inter per Lx Ly i1 o1 ys
                (List.range ys.length)
            else (0 : ℚ) + innerSum inter per Lx Ly i1 o1 ys
                (List.range ys.length) + boxE (geom o1) Lx Ly) := by
          cases per <;> simp [newObj, hrc, recalcValue, hvv]
        have hrec : outerLoop inter boxE per Lx Ly (i1 :: rest) ys se =
            outerLoop inter boxE per Lx Ly rest
              (ys.set i1 (newObj inter boxE per Lx Ly ys0 i1 o1))
              (se + (newObj inter boxE per Lx Ly ys0 i1 o1).cached_energy) := by
          rw [hform]
          simp [outerLoop, hy, hrc, hil]
        have hgnew : geom (newObj inter boxE per Lx Ly ys0 i1 o1) = geom o1 :=
          geom_newObj inter boxE per Lx Ly ys0 i1 o1
        have hg2 : (ys.set i1 (newObj inter boxE per Lx Ly ys0 i1 o1)).map
            geom = ys0.map geom := by
          rw [map_geom_set _ hy hgnew]
          exact hg
        have hsame2 : ∀ i ∈ rest,
            (ys.set i1 (newObj inter boxE per Lx Ly ys0 i1 o1))[i]? =
              ys0[i]? := by
          intro i hi
          have hne : i1 ≠ i := fun e => hni (e ▸ hi)
          rw [List.getElem?_set_ne hne]
          exact hsame i (List.mem_cons_of_mem _ hi)
        obtain ⟨ha, hb, hc, hd⟩ := ih
          (ys.set i1 (newObj inter boxE per Lx Ly ys0 i1 o1))
          (se + (newObj inter boxE per Lx Ly ys0 i1 o1).cached_energy)
          hnd2 hsame2 hg2
        refine ⟨?_, ?_, ?_, ?_⟩
        · intro i hi
          rcases List.mem_cons.mp hi with rfl | hi2
          · rw [hrec, hb i hni,
              List.getElem?_set_self (getq_lt hy), h0, Option.map_some']
          · rw [hrec]
            exact ha i hi2
        · intro i hi
          have hne : i1 ≠ i := fun e => hi (e ▸ List.mem_cons_self i1 rest)
          rw [hrec, hb i (fun hmem => hi (List.mem_cons_of_mem _ hmem)),
            List.getElem?_set_ne hne]
        · rw [hrec]
          rw [hc, map_geom_set _ hy hgnew]
        · rw [hrec, hd]
          simp [sumNew, h0]
          ring

lemma sum_map_cached (zs : List object) :
    (zs.map (fun o => o.cached_energy)).sum =
      cachedSum zs (List.range zs.length) := by
  induction zs with
  | nil => rfl
  | cons a t ih =>
    have hshift : ∀ idxs : List ℕ,
        cachedSum (a :: t) (idxs.map Nat.succ) = cachedSum t idxs := by
      intro idxs
      induction idxs with
      | nil => rfl
      | cons i rest ih2 => simp [cachedSum, ih2]
    rw [List.length_cons, List.range_succ_eq_map]
    simp [cachedSum, hshift, ih]

lemma cachedSum_eq_sumNew (inter : GObj → GObj → ℚ)
    (boxE : GObj → ℚ → ℚ → ℚ) (per : Bool) (Lx Ly : ℚ)
    (ys0 zs : List object) :
    ∀ idxs : List ℕ,
      (∀ i ∈ idxs, zs[i]? =
        (ys0[i]?).map (newObj inter boxE per Lx Ly ys0 i)) →
      cachedSum zs idxs = sumNew inter boxE per Lx Ly ys0 idxs := by
  intro idxs
  induction idxs with
  | nil => intro _; rfl
  | cons i rest ih =>
    intro h
    have hi := h i (by simp)
    simp only [cachedSum, sumNew]
    rw [hi, ih (fun j hj => h j (by simp [hj]))]
    cases h0 : ys0[i]? <;> simp

/-- C6: config::energy preserves the type, centre and orientation of every
object (the temporary periodic-image shift of a partner is exactly undone
before the next pair), and it changes no configuration field other than
the object energies, saved_energy and the unchanged flag. -/
theorem C6_energy_frame (inter : GObj → GObj → ℚ)
    (boxE : GObj → ℚ → ℚ → ℚ) (c : config) :
    (energy inter boxE c).2.obj_list.map geom = c.obj_list.map geom ∧
    (energy inter boxE c).2.x_size = c.x_size ∧
    (energy inter boxE c).2.y_size = c.y_size ∧
    (energy inter boxE c).2.is_periodic = c.is_periodic ∧
    (energy inter boxE c).2.the_topology = c.the_topology := by
  cases hc : c.unchanged with
  | true => simp [energy, hc]
  | false =>
    obtain ⟨_, _, hc3, _⟩ := outerLoop_spec inter boxE c.is_periodic c.x_size
      c.y_size c.obj_list (List.range c.obj_list.length) c.obj_list 0
      (List.nodup_range _) (fun _ _ => rfl) rfl
    have he : (energy inter boxE c).2 =
        { c with
          obj_list :=
            (outerLoop inter boxE c.is_periodic c.x_size c.y_size
              (List.range c.obj_list.length) c.obj_list 0).1,
          saved_energy :=
            (outerLoop inter boxE c.is_periodic c.x_size c.y_size
              (List.range c.obj_list.length) c.obj_list 0).2,
          unchanged := true } := by
      simp [energy, hc]
    rw [he]
    exact ⟨hc3, rfl, rfl, rfl, rfl⟩

/-- C1 counterexample: on a configuration flagged unchanged whose object
is flagged for recalculation and whose saved energy is stale,
config::energy recomputes nothing, does not clear the flag, and leaves
saved_energy different from the sum of the cached per-object energies. -/
theorem C1_cex :
    cStaleUnchanged.unchanged = true ∧
    (energy interZero boxZero cStaleUnchanged).2.saved_energy = 0 ∧
    ((energy interZero boxZero cStaleUnchanged).2.obj_list.map
      (fun o => o.cached_energy)).sum = 5 ∧
    ((energy interZero boxZero cStaleUnchanged).2.obj_list[0]?).map
      (fun o => o.recalculate) = some true ∧
    (0 : ℚ) ≠ 5 := by
  refine ⟨rfl, ?_, ?_, ?_, by norm_num⟩
  · simp [energy, cStaleUnchanged]
  · simp [energy, cStaleUnchanged, oStale]
  · simp [energy, cStaleUnchanged, oStale]

/-- C1 (amended): when the unchanged flag is clear, config::energy
recomputes a per-object energy exactly for the objects whose recalculate
flag is set, storing the inner-loop sum (plus wall term when not periodic)
through set_energy which clears the flag, leaves the other objects
untouched, sets saved_energy to the sum of all per-object cached energies,
and returns saved_energy divided by two. -/
theorem C1_energy_recompute (inter : GObj → GObj → ℚ)
    (boxE : GObj → ℚ → ℚ → ℚ) (c : config) (h : c.unchanged = false) :
    (∀ i o, c.obj_list[i]? = some o →
      (energy inter boxE c).2.obj_list[i]? =
        some (newObj inter boxE c.is_periodic c.x_size c.y_size
          c.obj_list i o)) ∧
    (energy inter boxE c).2.saved_energy =
      ((energy inter boxE c).2.obj_list.map
        (fun o => o.cached_energy)).sum ∧
    (energy inter boxE c).1 = (energy inter boxE c).2.saved_energy / 2 ∧
    (energy inter boxE c).2.unchanged = true := by
  obtain ⟨ha, hb, hc3, hd⟩ := outerLoop_spec inter boxE c.is_periodic c.x_size
    c.y_size c.obj_list (List.range c.obj_list.length) c.obj_list 0
    (List.nodup_range _) (fun _ _ => rfl) rfl
  have he : energy inter boxE c =
      ((outerLoop inter boxE c.is_periodic c.x_size c.y_size
          (List.range c.obj_list.length) c.obj_list 0).2 / 2,
        { c with
          obj_list :=
            (outerLoop inter boxE c.is_periodic c.x_size c.y_size
              (List.range c.obj_list.length) c.obj_list 0).1,
          saved_energy :=
            (outerLoop inter boxE c.is_periodic c.x_size c.y_size
              (List.range c.obj_list.length) c.obj_list 0).2,
          unchanged := true }) := by
    simp [energy, h]
  rw [he]
  refine ⟨?_, ?_, rfl, rfl⟩
  · intro i o hio
    have hmem := ha i (List.mem_range.mpr (getq_lt hio))
    rw [hio, Option.map_some'] at hmem
    exact hmem
  · show (outerLoop inter boxE c.is_periodic c.x_size c.y_size
        (List.range c.obj_list.length) c.obj_list 0).2 = _
    have hlen : (outerLoop inter boxE c.is_periodic c.x_size c.y_size
        (List.range c.obj_list.length) c.obj_list 0).1.length =
        c.obj_list.length := by
      have := congrArg List.length hc3
      simpa using this
    rw [hd, sum_map_cached, hlen,
      cachedSum_eq_sumNew inter boxE c.is_periodic c.x_size c.y_size
        c.obj_list _ (List.range c.obj_list.length) ha]
    simp

/-- Closed instance of C1_energy_recompute at a concrete two-object
configuration with a constant interaction. -/
theorem C1_witness :
    cDirty.unchanged = false ∧
    ((energy interOne boxZero cDirty).2.obj_list[0]? =
      some (newObj interOne boxZero cDirty.is_periodic cDirty.x_size
        cDirty.y_size cDirty.obj_list 0 oStale) ∧
    (energy interOne boxZero cDirty).2.saved_energy =
      ((energy interOne boxZero cDirty).2.obj_list.map
        (fun o => o.cached_energy)).sum ∧
    (energy interOne boxZero cDirty).1 =
      (energy interOne boxZero cDirty).2.saved_energy / 2 ∧
    (energy interOne boxZero cDirty).2.unchanged = true) :=
  ⟨rfl, (C1_energy_recompute interOne boxZero cDirty rfl).1 0 oStale rfl,
    (C1_energy_recompute interOne boxZero cDirty rfl).2⟩

/-- The image shift is always one of minus the box length, zero, or the
box length. -/
lemma imageShift_mem (L r : ℚ) :
    imageShift L r = -L ∨ imageShift L r = 0 ∨ imageShift L r = L := by
  simp only [imageShift]
  split_ifs
  · exact Or.inr (Or.inr rfl)
  · exact Or.inr (Or.inl rfl)
  · exact Or.inl rfl
  · exact Or.inr (Or.inl rfl)

/-- For a coordinate difference strictly inside one box length on either
side, the image shift minimizes the absolute shifted difference among the
three candidate shifts. -/
lemma imageShift_min (L r : ℚ) (hlo : -L < r) (hhi : r < L) :
    ∀ s : ℚ, s = -L ∨ s = 0 ∨ s = L → |r + imageShift L r| ≤ |r + s| := by
  have e1 : |r + L| = r + L := abs_of_nonneg (by linarith)
  have e2 : |r + -L| = -(r + -L) := abs_of_nonpos (by linarith)
  intro s hs
  simp only [imageShift]
  split_ifs with hneg habs habs
  · have ea : |r| = -r := abs_of_neg hneg
    rw [e1, ea] at habs
    rcases hs with hs | hs | hs <;> rw [hs]
    · rw [e1, e2]; linarith
    · rw [add_zero, e1, ea]; linarith
  · have ea : |r| = -r := abs_of_neg hneg
    rw [not_lt, e1, ea] at habs
    rcases hs with hs | hs | hs <;> rw [hs, add_zero]
    · rw [ea, e2]; linarith
    · rw [ea, e1]; linarith
  · have hr : 0 ≤ r := not_lt.mp hneg
    have ea : |r| = r := abs_of_nonneg hr
    rw [e2, ea] at habs
    rcases hs with hs | hs | hs <;> rw [hs]
    · rw [add_zero, e2, ea]; linarith
    · rw [e2, e1]; linarith
  · have hr : 0 ≤ r := not_lt.mp hneg
    have ea : |r| = r := abs_of_nonneg hr
    rw [not_lt, e2, ea] at habs
    rcases hs with hs | hs | hs <;> rw [hs, add_zero]
    · rw [ea, e2]; linarith
    · rw [ea, e1]; linarith

/-- C3: for positions inside the box, the per-axis shift applied inside
config::energy to the partner object is one of minus the box length, zero,
or the box length, and among those three candidates it brings the shifted
partner centre closest to the reference centre along that axis. -/
theorem C3_min_image (L a b : ℚ) (h0a : 0 ≤ a) (haL : a < L) (h0b : 0 ≤ b)
    (hbL : b < L) :
    (imageShift L (b - a) = -L ∨ imageShift L (b - a) = 0 ∨
      imageShift L (b - a) = L) ∧
    ∀ s : ℚ, s = -L ∨ s = 0 ∨ s = L →
      |b + imageShift L (b - a) - a| ≤ |b + s - a| := by
  have hL : 0 < L := lt_of_le_of_lt h0a haL
  refine ⟨imageShift_mem L (b - a), ?_⟩
  intro s hs
  have h := imageShift_min L (b - a) (by linarith) (by linarith) s hs
  have k1 : b + imageShift L (b - a) - a = b - a + imageShift L (b - a) := by
    ring
  have k2 : b + s - a = b - a + s := by ring
  rw [k1, k2]
  exact h

/-- Closed instance of C3_min_image at concrete in-box positions. -/
theorem C3_witness :
    ((0 : ℚ) ≤ 1 ∧ (1 : ℚ) < 10 ∧ (0 : ℚ) ≤ 9 ∧ (9 : ℚ) < 10) ∧
    ((imageShift 10 (9 - 1) = -10 ∨ imageShift 10 (9 - 1) = 0 ∨
        imageShift 10 (9 - 1) = 10) ∧
      ∀ s : ℚ, s = -10 ∨ s = 0 ∨ s = 10 →
        |9 + imageShift 10 (9 - 1) - 1| ≤ |9 + s - 1|) :=
  ⟨⟨by norm_num, by norm_num, by norm_num, by norm_num⟩,
    C3_min_image 10 1 9 (by norm_num) (by norm_num) (by norm_num)
      (by norm_num)⟩

lemma relief_ok_ge (N : ℕ) (big : ℚ) (U : ℕ → ℚ) :
    ∀ (fuel k m : ℕ), relief N big U fuel k = some (Except.ok m) → k ≤ m := by
  intro fuel
  induction fuel with
  | zero => intro k m h; simp [relief] at h
  | succ fuel ih =>
    intro k m h
    unfold relief at h
    by_cases h1 : big < U k
    · rw [if_pos h1] at h
      by_cases h2 : 2000 * N < 2 * N * k
      · rw [if_pos h2] at h
        simp at h
      · rw [if_neg h2] at h
        have := ih (k + 1) m h
        omega
    · rw [if_neg h1] at h
      simp at h
      omega

lemma relief_entry (N : ℕ) (big : ℚ) (U : ℕ → ℚ) (fuel : ℕ) :
    relief N big U (fuel + 1) 0 = some (Except.ok 0) ↔ ¬ big < U 0 := by
  unfold relief
  by_cases h1 : big < U 0
  · rw [if_pos h1]
    have h2 : ¬ 2000 * N < 2 * N * 0 := by simp
    rw [if_neg h2]
    constructor
    · intro h
      have := relief_ok_ge N big U fuel 1 0 h
      omega
    · intro h
      exact absurd h1 h
  · rw [if_neg h1]
    simp [h1]

lemma relief_error_iff (N : ℕ) (big : ℚ) (U : ℕ → ℚ) (hN : 1 ≤ N) :
    ∀ (fuel k : ℕ), 1002 ≤ k + fuel → k ≤ 1001 →
      (relief N big U fuel k = some (Except.error ()) ↔
        ∀ j, k ≤ j → j ≤ 1001 → big < U j) := by
  intro fuel
  induction fuel with
  | zero =>
    intro k hfk hk
    exact absurd hfk (by omega)
  | succ fuel ih =>
    intro k hfk hk
    unfold relief
    by_cases h1 : big < U k
    · rw [if_pos h1]
      by_cases h2 : 2000 * N < 2 * N * k
      · rw [if_pos h2]
        have h3 : 1000 < k := by
          by_contra hcon
          push_neg at hcon
          have hb : 2 * N * k ≤ 2 * N * 1000 :=
            Nat.mul_le_mul_left (2 * N) hcon
          have hc : 2 * N * 1000 = 2000 * N := by ring
          omega
        have hk1 : k = 1001 := by omega
        subst hk1
        constructor
        · intro _ j hj1 hj2
          have hj : j = 1001 := by omega
          subst hj
          exact h1
        · intro _
          rfl
      · rw [if_neg h2]
        have hk0 : k ≤ 1000 := by
          by_contra hcon
          push_neg at hcon
          have hb : 2 * N * 1001 ≤ 2 * N * k :=
            Nat.mul_le_mul_left (2 * N) hcon
          have hc : 2000 * N < 2 * N * 1001 := by omega
          exact h2 (lt_of_lt_of_le hc hb)
        rw [ih (k + 1) (by omega) (by omega)]
        constructor
        · intro hall j hj1 hj2
          rcases Nat.eq_or_lt_of_le hj1 with rfl | hlt
          · exact h1
          · exact hall j hlt hj2
        · intro hall j hj1 hj2
          exact hall j (by omega) hj2
    · rw [if_neg h1]
      constructor
      · intro hcontra
        simp at hcontra
      · intro hall
        exact absurd (hall k le_rfl hk) h1

/-- C4 counterexample: with the initial energy exactly equal to
big_energy, the driver loop guard, which compares with a strict
inequality, skips the overlap-relief phase entirely, contradicting the
claim that the phase is entered whenever the energy is at least
big_energy. -/
theorem C4_cex :
    (100 : ℚ) ≤ 100 ∧
    relief 1 100 (fun _ => 100) 1002 0 = some (Except.ok 0) := by
  refine ⟨le_refl _, ?_⟩
  rw [relief_entry 1 100 (fun _ => 100) 1001]
  norm_num

/-- C4 (amended): the driver enters the overlap-relief phase exactly when
the initial energy strictly exceeds big_energy; the phase runs the
integrator in batches of 2 N steps, with the step counter equal to 2 N
times the batch count, and it exits fatally exactly when the energy after
each of the first 1001 batches still strictly exceeds big_energy, at which
point the consumed 2 N times 1001 steps exceed the 2000 N allowance. -/
theorem C4_relief (N : ℕ) (big : ℚ) (U : ℕ → ℚ) (hN : 1 ≤ N) :
    (relief N big U 1002 0 = some (Except.ok 0) ↔ ¬ big < U 0) ∧
    (relief N big U 1002 0 = some (Except.error ()) ↔
      ∀ j, j ≤ 1001 → big < U j) ∧
    2000 * N < 2 * N * 1001 := by
  refine ⟨relief_entry N big U 1001, ?_, by omega⟩
  rw [relief_error_iff N big U hN 1002 0 (by omega) (by omega)]
  exact ⟨fun h j hj => h j (Nat.zero_le j) hj, fun h j _ hj => h j hj⟩

/-- Closed instance of C4_relief at concrete values. -/
theorem C4_witness :
    1 ≤ 1 ∧
    ((relief 1 1 (fun _ => 0) 1002 0 = some (Except.ok 0) ↔
        ¬ (1 : ℚ) < 0) ∧
      (relief 1 1 (fun _ => 0) 1002 0 = some (Except.error ()) ↔
        ∀ j, j ≤ 1001 → (1 : ℚ) < 0) ∧
      2000 * 1 < 2 * 1 * 1001) :=
  ⟨le_refl 1, C4_relief 1 1 (fun _ => 0) (le_refl 1)⟩

end HardDiscs
